import Mathlib

/-!
Shallow embedding of the OpenVMM chipset device-emulation core:
the QEMU-style firmware configuration device
(vm/devices/firmware/fw_cfg/src/lib.rs, with its wire formats from
vm/devices/firmware/fw_cfg/src/spec.rs) and the PS/2 mouse device
(vm/devices/chipset/src/i8042/ps2mouse.rs).

Bytes are modelled as Nat values (< 256 at every producer), machine
integers as Nat with explicit wrapping where the Rust code can wrap,
and Rust panics (todo, unreachable) as the None case of an Option
result.  VecDeque is modelled as a List with its front at the head.
-/

/-- Big-endian byte encoding of the low 16 bits of a Nat
(zerocopy U16 BigEndian as used by spec.rs wire structs). -/
def be16 (n : Nat) : List Nat :=
  [n / 2 ^ 8 % 256, n % 256]

/-- Big-endian byte encoding of the low 32 bits of a Nat
(zerocopy U32 BigEndian as used by spec.rs wire structs). -/
def be32 (n : Nat) : List Nat :=
  [n / 2 ^ 24 % 256, n / 2 ^ 16 % 256, n / 2 ^ 8 % 256, n % 256]

/-- Value of a big-endian 4-byte buffer (the Rust code reads a
zerocopy big-endian U32 out of a 4-byte array). -/
def be32_to_nat : List Nat → Nat
  | [b0, b1, b2, b3] => ((b0 * 256 + b1) * 256 + b2) * 256 + b3
  | _ => 0

/-- u16 from exactly two big-endian bytes (u16::from_be_bytes). -/
def u16_of_be (b0 b1 : Nat) : Nat := b0 * 256 + b1

/-- u16 from exactly two little-endian bytes (u16::from_le_bytes). -/
def u16_of_le (b0 b1 : Nat) : Nat := b0 + b1 * 256

/-- Wrapping 64-bit subtraction, as performed by Rust release-mode
u64 subtraction in addr - base register decoding. -/
def wsub64 (a b : Nat) : Nat := (a + (2 ^ 64 - b % 2 ^ 64)) % 2 ^ 64

/-- chipset_device::io::IoError, as described by the spec (section 4.1
error model): an access inside a claimed region that hits no register,
or an access width the register does not support. -/
inductive IoError where
  | InvalidRegister
  | InvalidAccessSize
deriving DecidableEq, Repr

/-- chipset_device::io::IoResult restricted to the synchronous cases the
two devices produce. -/
inductive IoResult where
  | Ok
  | Err (err : IoError)
deriving DecidableEq, Repr

namespace FwCfg

/-- spec.rs open_enum Selector: a 16-bit key, open to unknown values. -/
structure Selector where
  val : Nat
deriving DecidableEq, Repr

def Selector.SIGNATURE : Selector := ⟨0x0⟩
def Selector.ID : Selector := ⟨0x1⟩
def Selector.FILE_DIR : Selector := ⟨0x19⟩
def Selector.BASE_FILE : Selector := ⟨0x20⟩
def Selector.BASE_ARCH_LOCAL : Selector := ⟨0x8000⟩

/-- FwCfgFile from lib.rs.  String and Vec carry their content bytes.
A filesystem-backed File's content is host-side data that the device
only ever queries for metadata (gen_file_dir) or hits a todo on
(read_data); its metadata query is modelled as an optional length,
None standing for a std::io::Error from File::metadata. -/
inductive FwCfgFile where
  | string (contents : List Nat)
  | vec (contents : List Nat)
  | file (metadataLen : Option Nat)
deriving DecidableEq, Repr

/-- Size query performed by gen_file_dir for each registered file:
String/Vec lengths are infallible, File goes through metadata(). -/
def fileSize : FwCfgFile → Option Nat
  | .string s => some s.length
  | .vec v => some v.length
  | .file m => m

/-- Construction/serialization error enum from lib.rs. -/
inductive Error where
  | FilenameNotAscii
  | FilenameTooLong
  | MetadataFailed
  | FileTooBig
deriving DecidableEq, Repr

/-- One 64-byte FileDirFile record (spec.rs): size u32 BE, select
u16 BE, reserved u16 BE, 56-byte NUL-padded name. -/
def fileRecord (idx : Nat) (name : List Nat) (size : Nat) : List Nat :=
  be32 size ++ be16 ((Selector.BASE_FILE.val + idx) % 2 ^ 16) ++ be16 0 ++
    (name ++ List.replicate (56 - name.length) 0)

/-- The per-file loop of gen_file_dir, threading the running index.
Returns the bytes appended so far together with the error, if any,
that aborted the loop (the Rust code extends the buffer in place and
returns early, leaving the bytes already appended). -/
def gen_file_dir_records : List (List Nat × FwCfgFile) → Nat → List Nat × Option Error
  | [], _ => ([], none)
  | (name, content) :: rest, idx =>
    if ¬ name.all (fun b => b < 128) then ([], some .FilenameNotAscii)
    else if name.length > 55 then ([], some .FilenameTooLong)
    else
      match fileSize content with
      | none => ([], some .MetadataFailed)
      | some size =>
        if size > 0xFFFFFFFF then ([], some .FileTooBig)
        else
          let tail := gen_file_dir_records rest (idx + 1)
          (fileRecord idx name size ++ tail.1, tail.2)

/-- gen_file_dir from lib.rs: 4-byte big-endian count, then one 64-byte
record per registered file in order. -/
def gen_file_dir (files : List (List Nat × FwCfgFile)) : List Nat × Option Error :=
  let recs := gen_file_dir_records files 0
  (be32 (files.length % 2 ^ 32) ++ recs.1, recs.2)

/-- spec.rs DmaAccess: the 16-byte guest-resident DMA descriptor.
Fields hold the decoded big-endian values. -/
structure DmaAccess where
  control : Nat
  length : Nat
  address : Nat
deriving DecidableEq, Repr

/-- guestmem::GuestMemory restricted to the one operation the device
performs: read_plain of a DmaAccess at a guest physical address,
which may fail (unmapped or invalid address). -/
def GuestMemory := Nat → Option DmaAccess

/-- FwCfgRegisterLayout from lib.rs. -/
inductive FwCfgRegisterLayout where
  | IoPort
  | Mmio (base : Nat)

end FwCfg

/-- The FwCfg device state: static configuration (register layout,
file table, guest memory handle) plus the runtime book-keeping and
volatile registers of the Rust struct. -/
structure FwCfg where
  register_layout : FwCfg.FwCfgRegisterLayout
  files : List (List Nat × FwCfg.FwCfgFile)
  gm : FwCfg.GuestMemory
  buf : List Nat
  buf_valid : Bool
  selector : FwCfg.Selector
  data_offset : Nat
  dma_lo : Nat
  dma_hi : Nat

namespace FwCfg

/-- Device construction (FwCfg::new): the volatile state starts with
selector u16::MAX, an empty invalid buffer, cursor 0 and cleared DMA
latches.  The file table and layout are taken as parameters (the Rust
constructor registers its fixed etc/e820 and etc/show-boot-menu Vec
files; claims quantify over the table). -/
def new (layout : FwCfgRegisterLayout) (files : List (List Nat × FwCfgFile))
    (gm : GuestMemory) : FwCfg :=
  { register_layout := layout
    files := files
    gm := gm
    buf := []
    buf_valid := false
    selector := ⟨0xFFFF⟩
    data_offset := 0
    dma_lo := 0
    dma_hi := 0 }

/-- FwCfg::write_selector: set the selector, reset the cursor, and set
buf_valid to whether the new selector equals the old one. -/
def write_selector (s : FwCfg) (data : Nat) : IoResult × FwCfg :=
  let new_selector : Selector := ⟨data⟩
  (.Ok,
    { s with
      selector := new_selector
      data_offset := 0
      buf_valid := decide (new_selector = s.selector) })

/-- Outcome of the lazy buffer materialization inside read_data. -/
inductive MatResult where
  | ok (b : List Nat)
  | fail
  | failBytes (b : List Nat)
  | panic
deriving DecidableEq, Repr

/-- The selector dispatch of FwCfg::read_data when the cached buffer is
invalid: signature bytes for SIGNATURE, the IdBitmap with only the trad
bit set (little-endian u32 1) for ID, the synthesized directory for
FILE_DIR (failBytes carries the partial bytes on a gen_file_dir error),
empty content for every selector outside the file range, the file bytes
for a valid file index (a File-backed entry hits a todo, i.e. panic),
and fail for a file-range selector with no file at that index. -/
def materialize (files : List (List Nat × FwCfgFile)) (sel : Selector) : MatResult :=
  if sel = Selector.SIGNATURE then .ok [0x51, 0x45, 0x4D, 0x55]
  else if sel = Selector.ID then .ok [1, 0, 0, 0]
  else if sel = Selector.FILE_DIR then
    match gen_file_dir files with
    | (b, some _) => .failBytes b
    | (b, none) => .ok b
  else if ¬ (Selector.BASE_FILE.val ≤ sel.val ∧ sel.val < Selector.BASE_ARCH_LOCAL.val) then
    .ok []
  else
    match files[sel.val - Selector.BASE_FILE.val]? with
    | none => .fail
    | some (_, .string c) => .ok c
    | some (_, .vec c) => .ok c
    | some (_, .file _) => .panic

/-- The copy phase of FwCfg::read_data: copy min(remaining, width)
bytes starting at the cursor and advance the cursor by the bytes
copied.  Returns the new state and the copied bytes. -/
def copy_step (s : FwCfg) (width : Nat) : FwCfg × List Nat :=
  let buf_remaining := s.buf.length - s.data_offset
  let n := min buf_remaining width
  ({ s with data_offset := s.data_offset + n },
    (s.buf.drop s.data_offset).take n)

/-- FwCfg::read_data.  width is the caller buffer length; the result
carries the IoResult, the new state and the bytes copied into the
caller buffer.  None models the todo panic on File-backed entries. -/
def read_data (s : FwCfg) (width : Nat) : Option (IoResult × FwCfg × List Nat) :=
  if s.buf_valid then
    let r := copy_step s width
    some (.Ok, r.1, r.2)
  else
    match materialize s.files s.selector with
    | .panic => none
    | .fail => some (.Ok, { s with buf := [], buf_valid := false }, [])
    | .failBytes b => some (.Ok, { s with buf := b, buf_valid := false }, [])
    | .ok b =>
      let s1 := { s with buf := b, buf_valid := true }
      let r := copy_step s1 width
      some (.Ok, r.1, r.2)

/-- The zerocopy latch in write_dma_hi / write_dma_lo: a zeroed 4-byte
big-endian buffer whose first min(len, 4) bytes are overwritten by the
written bytes, then read as a big-endian u32. -/
def latch_be32 (val : List Nat) : Nat :=
  be32_to_nat (val.take 4 ++ List.replicate (4 - val.length) 0)

/-- The guest physical address of the DMA descriptor as computed by
FwCfg::write_dma_lo: ((dma_hi as u64) shifted left by 4) bitor dma_lo. -/
def dma_gpa (hi lo : Nat) : Nat := (hi <<< 4) ||| lo

/-- FwCfg::write_dma_lo: latch the low half, compute the descriptor
address, fetch the descriptor from guest memory (a fetch failure is
logged and absorbed, returning Ok), and on a successful fetch fall
into the unimplemented DMA kick-off todo, modelled as None (panic). -/
def write_dma_lo (s : FwCfg) (val : List Nat) : Option (IoResult × FwCfg) :=
  let s1 := { s with dma_lo := latch_be32 val }
  let gpa := dma_gpa s1.dma_hi s1.dma_lo
  match s1.gm gpa with
  | none => some (.Ok, s1)
  | some _ => none

/-- FwCfg::write_dma_hi: latch the high half; an 8-byte write also
writes the remaining 4 bytes to the low half (triggering the DMA). -/
def write_dma_hi (s : FwCfg) (val : List Nat) : Option (IoResult × FwCfg) :=
  let s1 := { s with dma_hi := latch_be32 val }
  if val.length = 8 then write_dma_lo s1 (val.drop 4)
  else some (.Ok, s1)

/-- MmioIntercept::mmio_read for FwCfg: only the data register (offset
0) is readable; every other offset is write-only and returns
InvalidRegister.  None models the unreachable panic when the device was
constructed with the IoPort layout. -/
def mmio_read (s : FwCfg) (addr : Nat) (width : Nat) :
    Option (IoResult × FwCfg × List Nat) :=
  match s.register_layout with
  | .IoPort => none
  | .Mmio base =>
    if wsub64 addr base = 0 then read_data s width
    else some (.Err .InvalidRegister, s, [])

/-- MmioIntercept::mmio_write for FwCfg: selector at offset 8 (2-byte
big-endian, other widths are InvalidAccessSize), deprecated data write
at offset 0 (absorbed), DMA high/low at offsets 16/20, anything else
InvalidRegister. -/
def mmio_write (s : FwCfg) (addr : Nat) (data : List Nat) :
    Option (IoResult × FwCfg) :=
  match s.register_layout with
  | .IoPort => none
  | .Mmio base =>
    let off := wsub64 addr base
    if off = 8 then
      match data with
      | [b0, b1] => some (write_selector s (u16_of_be b0 b1))
      | _ => some (.Err .InvalidAccessSize, s)
    else if off = 0 then some (.Ok, s)
    else if off = 16 then write_dma_hi s data
    else if off = 20 then write_dma_lo s data
    else some (.Err .InvalidRegister, s)

/-- PortIoIntercept::io_read for FwCfg: only the data port 0x511 is
readable; every other port is write-only and returns InvalidRegister.
None models the unreachable panic under the Mmio layout. -/
def io_read (s : FwCfg) (addr : Nat) (width : Nat) :
    Option (IoResult × FwCfg × List Nat) :=
  match s.register_layout with
  | .Mmio _ => none
  | .IoPort =>
    if addr = 0x511 then read_data s width
    else some (.Err .InvalidRegister, s, [])

/-- PortIoIntercept::io_write for FwCfg: selector at 0x510 (2-byte
little-endian), deprecated data write at 0x511 (absorbed), DMA high at
0x514 and low at 0x518, anything else InvalidRegister. -/
def io_write (s : FwCfg) (addr : Nat) (data : List Nat) :
    Option (IoResult × FwCfg) :=
  match s.register_layout with
  | .Mmio _ => none
  | .IoPort =>
    if addr = 0x510 then
      match data with
      | [b0, b1] => some (write_selector s (u16_of_le b0 b1))
      | _ => some (.Err .InvalidAccessSize, s)
    else if addr = 0x511 then some (.Ok, s)
    else if addr = 0x514 then write_dma_hi s data
    else if addr = 0x518 then write_dma_lo s data
    else some (.Err .InvalidRegister, s)

/-- A sequence of data-register reads with the given widths: the final
state and the concatenation of all bytes copied out. -/
def readSeq (s : FwCfg) (widths : List Nat) : Option (FwCfg × List Nat) :=
  match widths with
  | [] => some (s, [])
  | w :: ws =>
    match read_data s w with
    | none => none
    | some (_, s1, out) =>
      match readSeq s1 ws with
      | none => none
      | some (sfin, rest) => some (sfin, out ++ rest)

end FwCfg

namespace Ps2Mouse

/-- MouseState from ps2mouse.rs.  The VecDeque output buffer is a list
with its front at the head; the surrounding Ps2Mouse struct only adds
the boxed input-event source, which none of the register operations
touch. -/
structure MouseState where
  previous_command : Option Nat
  output_buffer : List Nat
  active : Bool
  last_output_byte_read : Nat
  prev_x : Nat
  prev_y : Nat
deriving DecidableEq, Repr

/-- MouseState::new, also the state installed by Ps2Mouse::reset. -/
def MouseState.new : MouseState :=
  { previous_command := none
    output_buffer := []
    active := false
    last_output_byte_read := 0
    prev_x := 0
    prev_y := 0 }

def MOUSE_BUFFER_SIZE : Nat := 65

def ACKNOWLEDGE_COMMAND : Nat := 0xFA

def SET_RESOLUTION : Nat := 0xE8
def GET_ID : Nat := 0xF2
def SET_SAMPLE_RATE : Nat := 0xF3
def ENABLE_DATA_REPORTING : Nat := 0xF4
def DISABLE_DATA_REPORTING : Nat := 0xF5
def RESEND : Nat := 0xFE
def RESET : Nat := 0xFF

/-- Ps2Mouse::push: append while the queue length is at most
MOUSE_BUFFER_SIZE, otherwise overwrite the back element with 0 to
signal overflow (back_mut is Some since the length exceeds 65). -/
def push (s : MouseState) (value : Nat) : MouseState :=
  if s.output_buffer.length ≤ MOUSE_BUFFER_SIZE then
    { s with output_buffer := s.output_buffer ++ [value] }
  else
    { s with output_buffer := s.output_buffer.dropLast ++ [0] }

/-- A sequence of pushes, left to right. -/
def pushSeq (s : MouseState) (vs : List Nat) : MouseState :=
  vs.foldl push s

/-- Ps2Mouse::command: returns the new state and whether the command
completed (false models the None return asking for a data byte). -/
def command (s : MouseState) (cmd : Nat) (data : Option Nat) : MouseState × Bool :=
  if cmd = SET_SAMPLE_RATE then
    let s1 := push s ACKNOWLEDGE_COMMAND
    match data with
    | none => (s1, false)
    | some _ => (s1, true)
  else if cmd = SET_RESOLUTION then
    let s1 := push s ACKNOWLEDGE_COMMAND
    match data with
    | none => (s1, false)
    | some _ => (s1, true)
  else if cmd = ENABLE_DATA_REPORTING then
    let s1 := push s ACKNOWLEDGE_COMMAND
    ({ s1 with active := true }, true)
  else if cmd = DISABLE_DATA_REPORTING then
    let s1 := push s ACKNOWLEDGE_COMMAND
    ({ s1 with active := false }, true)
  else if cmd = GET_ID then
    (push (push s ACKNOWLEDGE_COMMAND) 0, true)
  else if cmd = RESEND then
    (push s s.last_output_byte_read, true)
  else if cmd = RESET then
    (push (push (push s ACKNOWLEDGE_COMMAND) 0xAA) 0, true)
  else
    (push s ACKNOWLEDGE_COMMAND, true)

/-- Ps2Mouse::input: a pending command consumes the byte as its data
byte, otherwise the byte is a fresh command opcode; a command that
still awaits a data byte is remembered as pending. -/
def input (s : MouseState) (b : Nat) : MouseState :=
  let t : Nat × Option Nat × MouseState :=
    match s.previous_command with
    | some c => (c, some b, { s with previous_command := none })
    | none => (b, none, s)
  let r := command t.2.2 t.1 t.2.1
  if r.2 then r.1 else { r.1 with previous_command := some t.1 }

/-- Ps2Mouse::output: pop the front of the queue, remembering the byte
for RESEND. -/
def output (s : MouseState) : Option Nat × MouseState :=
  match s.output_buffer with
  | [] => (none, s)
  | v :: rest =>
    (some v, { s with output_buffer := rest, last_output_byte_read := v })

/-- Repeated output() calls, with fuel bounding the number of calls. -/
def drainFuel : Nat → MouseState → List Nat
  | 0, _ => []
  | fuel + 1, s =>
    match output s with
    | (none, _) => []
    | (some v, s1) => v :: drainFuel fuel s1

/-- The full sequence of bytes produced by calling output() until it
returns none (the queue length bounds the number of productive calls). -/
def drain (s : MouseState) : List Nat :=
  drainFuel s.output_buffer.length s

/-- SaveRestore::save for Ps2Mouse: the saved state carries exactly the
output-queue bytes, front to back. -/
def save (s : MouseState) : List Nat := s.output_buffer

/-- SaveRestore::restore for Ps2Mouse: installs the saved queue bytes,
leaving every other field of the receiving device untouched. -/
def restore (s : MouseState) (saved : List Nat) : MouseState :=
  { s with output_buffer := saved }

/-- A mouse whose queue holds exactly MOUSE_BUFFER_SIZE bytes. -/
def exAtCapacity : MouseState :=
  { MouseState.new with output_buffer := List.replicate MOUSE_BUFFER_SIZE 1 }

/-- A mouse whose queue holds MOUSE_BUFFER_SIZE + 1 bytes. -/
def exOverCapacity : MouseState :=
  { MouseState.new with output_buffer := List.replicate (MOUSE_BUFFER_SIZE + 1) 1 }

end Ps2Mouse

namespace FwCfg

/-- Guest memory with nothing mapped: every descriptor fetch fails. -/
def gmNone : GuestMemory := fun _ => none

/-- Guest memory holding a valid 16-byte DMA descriptor only at the
architecturally expected address (1 shifted left by 32). -/
def gmAtHigh : GuestMemory := fun a =>
  if a = 0x100000000 then some ⟨0, 0, 0⟩ else none

/-- Guest memory where every descriptor fetch succeeds. -/
def gmAll : GuestMemory := fun _ => some ⟨0, 0, 0⟩

/-- A freshly constructed IoPort-layout device with the high DMA latch
already holding 1, over gmAtHigh. -/
def exDmaHi1 : FwCfg :=
  { new .IoPort [] gmAtHigh with dma_hi := 1 }

/-- A freshly constructed IoPort-layout device over guest memory where
every descriptor fetch succeeds. -/
def exGmAll : FwCfg := new .IoPort [] gmAll

/-- A fresh device whose current selector is 5 (and whose cached
buffer is invalid, as after construction). -/
def exSel5 : FwCfg := { new .IoPort [] gmNone with selector := ⟨5⟩ }

/-- A fresh IoPort device with two registered Vec files. -/
def exTwoFiles : FwCfg :=
  new .IoPort [([], .vec [1, 2, 3]), ([], .vec [9])] gmNone

/-- Select file 1 (selector 0x21), read one byte, then write selector
0x20 twice and read with width 3: the bytes the final read copies. -/
def exStaleRun : Option (List Nat) :=
  (read_data (write_selector exTwoFiles 0x21).2 1).bind fun r =>
    (readSeq (write_selector (write_selector r.2.1 0x20).2 0x20).2 [3]).map
      fun q => q.2

/-- A fresh IoPort device with one registered Vec file. -/
def exOneFile : FwCfg := new .IoPort [([], .vec [7])] gmNone

/-- Select file 0 and read one byte, then write the legacy selector
0x02 twice and read one byte: the bytes the final read copies. -/
def exLegacyRun : Option (List Nat) :=
  (read_data (write_selector exOneFile 0x20).2 1).bind fun r =>
    (read_data (write_selector (write_selector r.2.1 0x02).2 0x02).2 1).map
      fun q => q.2.2

/-- A two-entry file table with ASCII names and in-memory contents. -/
def exFileTable : List (List Nat × FwCfgFile) :=
  [([0x61], .vec [1, 2, 3]), ([0x62, 0x63], .string [7, 8])]

/-- A fresh device with the relocatable MMIO layout at base 0x1000. -/
def exMmioDev : FwCfg := new (.Mmio 0x1000) [] gmNone

/-- A fresh device with the fixed IoPort layout. -/
def exPioDev : FwCfg := new .IoPort [] gmNone

end FwCfg

namespace Ps2Mouse

/-- A push appends exactly when the queue holds at most 65 bytes;
when it holds more, the length is unchanged. -/
theorem push_length (s : MouseState) (v : Nat) :
    (push s v).output_buffer.length =
      if s.output_buffer.length ≤ MOUSE_BUFFER_SIZE then
        s.output_buffer.length + 1
      else s.output_buffer.length := by
  unfold push
  split
  · simp
  · rename_i h
    have hne : s.output_buffer ≠ [] := by
      intro hnil
      rw [hnil] at h
      simp [MOUSE_BUFFER_SIZE] at h
    simp [List.length_dropLast, h]
    omega

/-- drainFuel with fuel equal to the queue length produces exactly the
queue contents, front to back. -/
theorem drainFuel_spec :
    ∀ (l : List Nat) (s : MouseState), s.output_buffer = l →
      drainFuel l.length s = l := by
  intro l
  induction l with
  | nil => intro s _; rfl
  | cons v rest ih =>
    intro s hb
    show drainFuel (rest.length + 1) s = v :: rest
    unfold drainFuel output
    rw [hb]
    simp only []
    rw [ih { s with output_buffer := rest, last_output_byte_read := v } rfl]

/-- The observable output sequence of a mouse is its queue contents. -/
theorem drain_eq_queue (s : MouseState) : drain s = s.output_buffer :=
  drainFuel_spec s.output_buffer s rfl

end Ps2Mouse

namespace Ps2Mouse

/-- Claim C3 (counterexample): sending SET_SAMPLE_RATE to a mouse with
no pending command and then one more byte pushes TWO acknowledgement
bytes in total, not exactly one as claimed: the handler pushes 0xFA
when the command byte arrives and again when the pending command is
re-run on the data byte. -/
theorem set_sample_rate_two_acks_counterexample :
    (input (input MouseState.new SET_SAMPLE_RATE) 100).output_buffer
      = [ACKNOWLEDGE_COMMAND, ACKNOWLEDGE_COMMAND] ∧
    ¬ ((input (input MouseState.new SET_SAMPLE_RATE) 100).output_buffer.count
        ACKNOWLEDGE_COMMAND = 1) := by
  exact ⟨rfl, by decide⟩

/-- Claim C3 (amended): for a mouse with no pending command, the
SET_SAMPLE_RATE byte pushes one acknowledgement and leaves the command
pending; the next byte is consumed as the data byte (no command
remains pending) and pushes a second acknowledgement, so exactly two
acknowledgement bytes are queued in total. -/
theorem set_sample_rate_ack_per_byte (s : MouseState) (d : Nat)
    (hpend : s.previous_command = none)
    (hlen : s.output_buffer.length ≤ 64) :
    (input s SET_SAMPLE_RATE).previous_command = some SET_SAMPLE_RATE ∧
    (input s SET_SAMPLE_RATE).output_buffer
      = s.output_buffer ++ [ACKNOWLEDGE_COMMAND] ∧
    (input (input s SET_SAMPLE_RATE) d).previous_command = none ∧
    (input (input s SET_SAMPLE_RATE) d).output_buffer
      = s.output_buffer ++ [ACKNOWLEDGE_COMMAND, ACKNOWLEDGE_COMMAND] := by
  have h1 : s.output_buffer.length ≤ MOUSE_BUFFER_SIZE := by
    unfold MOUSE_BUFFER_SIZE; omega
  have h2 : s.output_buffer.length + 1 ≤ MOUSE_BUFFER_SIZE := by
    unfold MOUSE_BUFFER_SIZE
    omega
  simp [input, hpend, command, push, h1, h2]

/-- Witness for set_sample_rate_ack_per_byte at a freshly constructed
mouse and data byte 100. -/
theorem set_sample_rate_ack_per_byte_witness :
    MouseState.new.previous_command = none ∧
    MouseState.new.output_buffer.length ≤ 64 ∧
    (input (input MouseState.new SET_SAMPLE_RATE) 100).output_buffer
      = MouseState.new.output_buffer ++ [ACKNOWLEDGE_COMMAND, ACKNOWLEDGE_COMMAND] :=
  ⟨rfl, by decide,
    (set_sample_rate_ack_per_byte MouseState.new 100 rfl (by decide)).2.2.2⟩

/-- Claim C4 (counterexample): a push attempted when the queue is
exactly at capacity (MOUSE_BUFFER_SIZE = 65 bytes) DOES grow the queue,
to 66 bytes, and does not overwrite the last byte with 0: the overflow
guard uses a non-strict comparison, so the claimed bound of 65 is
exceeded. -/
theorem push_at_capacity_grows_counterexample :
    (push exAtCapacity 2).output_buffer.length = MOUSE_BUFFER_SIZE + 1 ∧
    MOUSE_BUFFER_SIZE + 1 > MOUSE_BUFFER_SIZE ∧
    (push exAtCapacity 2).output_buffer.getLast? = some 2 := by
  refine ⟨by decide, by decide, by decide⟩

/-- Claim C4 (amended): for every sequence of pushes, the queue length
never exceeds MOUSE_BUFFER_SIZE + 1 = 66; a push attempted when the
queue holds 66 bytes does not grow it and does not drop silently: it
overwrites the current last queued byte with 0. -/
theorem push_bounded_by_capacity_succ (s : MouseState) (vs : List Nat)
    (h : s.output_buffer.length ≤ MOUSE_BUFFER_SIZE + 1) :
    (pushSeq s vs).output_buffer.length ≤ MOUSE_BUFFER_SIZE + 1 ∧
    (∀ v, s.output_buffer.length = MOUSE_BUFFER_SIZE + 1 →
      (push s v).output_buffer.length = MOUSE_BUFFER_SIZE + 1 ∧
      (push s v).output_buffer = s.output_buffer.dropLast ++ [0]) := by
  constructor
  · induction vs generalizing s with
    | nil => exact h
    | cons v vs ih =>
      show (pushSeq (push s v) vs).output_buffer.length ≤ _
      apply ih
      rw [push_length]
      split
      · rename_i hle
        unfold MOUSE_BUFFER_SIZE at *
        omega
      · exact h
  · intro v hv
    have hgt : ¬ s.output_buffer.length ≤ MOUSE_BUFFER_SIZE := by omega
    constructor
    · rw [push_length, if_neg hgt, hv]
    · unfold push
      rw [if_neg hgt]

/-- Witness for push_bounded_by_capacity_succ at a queue already
holding 66 bytes, pushing one more byte. -/
theorem push_bounded_by_capacity_succ_witness :
    exOverCapacity.output_buffer.length ≤ MOUSE_BUFFER_SIZE + 1 ∧
    (pushSeq exOverCapacity [5]).output_buffer.length ≤ MOUSE_BUFFER_SIZE + 1 ∧
    (push exOverCapacity 5).output_buffer.length = MOUSE_BUFFER_SIZE + 1 :=
  ⟨by decide,
    (push_bounded_by_capacity_succ exOverCapacity [5] (by decide)).1,
    ((push_bounded_by_capacity_succ exOverCapacity [5] (by decide)).2 5 (by decide)).1⟩

/-- Claim C8: saving a mouse and restoring the saved state onto a
freshly constructed mouse reproduces the full sequence of bytes that
repeated output() calls would have produced on the original device. -/
theorem save_restore_output_roundtrip (s : MouseState) :
    drain (restore MouseState.new (save s)) = drain s := by
  rw [drain_eq_queue, drain_eq_queue]
  rfl

end Ps2Mouse

namespace FwCfg

/-- Claim C1 (code defect): on a DMA-low write the device computes the
descriptor address as (high shifted left by 4) bitor low, not
(high shifted left by 32) bitor low.  With dma_hi = 1, dma_lo = 0 the
code fetches from 0x10 instead of 0x100000000: a valid descriptor
placed at 0x100000000 is never fetched and the write returns Ok with
only the latch updated. -/
theorem dma_gpa_shift_defect :
    dma_gpa 1 0 = 0x10 ∧
    dma_gpa 1 0 ≠ 0x100000000 ∧
    exDmaHi1.gm 0x100000000 = some ⟨0, 0, 0⟩ ∧
    exDmaHi1.gm (dma_gpa 1 0) = none ∧
    write_dma_lo exDmaHi1 [0, 0, 0, 0] = some (.Ok, exDmaHi1) := by
  exact ⟨by decide, by decide, rfl, rfl, rfl⟩

/-- Claim C2 (code defect): a guest write of 4 bytes to the DMA-low
port on a device whose guest memory successfully returns the 16-byte
descriptor does NOT terminate normally: after fetching the descriptor
the handler reaches the unimplemented-DMA todo and panics (modelled as
None), contradicting the claim that every access returns an IoResult. -/
theorem write_dma_lo_descriptor_fetch_panics :
    exGmAll.gm (dma_gpa exGmAll.dma_hi 0) = some ⟨0, 0, 0⟩ ∧
    io_write exGmAll 0x518 [0, 0, 0, 0] = none := by
  exact ⟨rfl, rfl⟩

/-- Claim C5 (counterexample): writing the currently selected selector
value does NOT preserve the cached buffer's prior validity: on a device
whose buffer is invalid and whose selector is 5, writing selector 5
forces the buffer valid. -/
theorem write_selector_forces_valid_counterexample :
    exSel5.buf_valid = false ∧
    (write_selector exSel5 5).2.selector = exSel5.selector ∧
    (write_selector exSel5 5).2.buf_valid = true := by
  exact ⟨rfl, rfl, rfl⟩

/-- Claim C5 (amended): writing s to the selector register returns Ok,
sets the current selector to s, resets the read cursor to 0 and leaves
the buffer bytes untouched; the cached-buffer validity flag becomes
exactly (s equals the previous selector): invalidated whenever s
differs, forced valid whenever s is the selector already current,
regardless of the prior validity. -/
theorem write_selector_characterization (s : FwCfg) (d : Nat)
    (_hd : d < 2 ^ 16) :
    (write_selector s d).1 = .Ok ∧
    (write_selector s d).2.selector = ⟨d⟩ ∧
    (write_selector s d).2.data_offset = 0 ∧
    ((write_selector s d).2.buf_valid = true ↔ Selector.mk d = s.selector) ∧
    ((write_selector s d).2.buf_valid = false ↔ Selector.mk d ≠ s.selector) ∧
    (write_selector s d).2.buf = s.buf := by
  refine ⟨rfl, rfl, rfl, ?_, ?_, rfl⟩ <;> simp [write_selector]

/-- Witness for write_selector_characterization at the device whose
selector is 5 and the written value 7. -/
theorem write_selector_characterization_witness :
    (7 : Nat) < 2 ^ 16 ∧
    ((write_selector exSel5 7).2.buf_valid = false ↔
      Selector.mk 7 ≠ exSel5.selector) :=
  ⟨by decide, (write_selector_characterization exSel5 7 (by decide)).2.2.2.2.1⟩

/-- Claim C10: for every address inside a claimed region other than the
data register — the selector region and the DMA region, under either
register layout — a guest read returns Err InvalidRegister and leaves
the device state unchanged (the returned state is the input state and
no byte is copied out). -/
theorem read_nondata_registers_invalid (s : FwCfg) :
    (∀ base addr w, s.register_layout = .Mmio base → base + 23 < 2 ^ 64 →
      ((base + 8 ≤ addr ∧ addr ≤ base + 9) ∨
        (base + 16 ≤ addr ∧ addr ≤ base + 23)) →
      mmio_read s addr w = some (.Err .InvalidRegister, s, [])) ∧
    (∀ addr w, s.register_layout = .IoPort →
      (addr = 0x510 ∨ (0x514 ≤ addr ∧ addr ≤ 0x51B)) →
      io_read s addr w = some (.Err .InvalidRegister, s, [])) := by
  constructor
  · intro base addr w hl hb hr
    have hoff : wsub64 addr base = addr - base := by
      unfold wsub64
      rw [Nat.mod_eq_of_lt (a := base) (by omega)]
      have harr : addr + (2 ^ 64 - base) = (addr - base) + 2 ^ 64 := by omega
      rw [harr, Nat.add_mod_right, Nat.mod_eq_of_lt (by omega)]
    unfold mmio_read
    rw [hl]
    simp only [hoff]
    rw [if_neg (by omega)]
  · intro addr w hl hr
    unfold io_read
    rw [hl]
    simp only []
    rw [if_neg (by omega)]

/-- Witness for read_nondata_registers_invalid: the MMIO selector
offset on an Mmio-layout device and the PIO selector port on an
IoPort-layout device. -/
theorem read_nondata_registers_invalid_witness :
    mmio_read exMmioDev 0x1008 2 = some (.Err .InvalidRegister, exMmioDev, []) ∧
    io_read exPioDev 0x510 1 = some (.Err .InvalidRegister, exPioDev, []) :=
  ⟨(read_nondata_registers_invalid exMmioDev).1 0x1000 0x1008 2 rfl (by decide)
      (Or.inl (by decide)),
    (read_nondata_registers_invalid exPioDev).2 0x510 1 rfl (Or.inl rfl)⟩

end FwCfg

namespace FwCfg

/-- read_data on a state whose cached buffer is valid: it returns Ok,
copies min(remaining, width) bytes starting at the cursor and advances
the cursor by exactly the number of bytes copied. -/
theorem read_data_valid (s : FwCfg) (w : Nat) (hv : s.buf_valid = true) :
    read_data s w =
      some (.Ok,
        { s with data_offset :=
            s.data_offset + min (s.buf.length - s.data_offset) w },
        (s.buf.drop s.data_offset).take
          (min (s.buf.length - s.data_offset) w)) := by
  unfold read_data copy_step
  rw [if_pos hv]

/-- Reading with any width sequence whose total covers the bytes
remaining past the cursor drains the cached buffer exactly: the
concatenated output is the buffer past the cursor, and the final cursor
sits at the end of the buffer. -/
theorem readSeq_drains (widths : List Nat) :
    ∀ s : FwCfg, s.buf_valid = true → s.data_offset ≤ s.buf.length →
      s.buf.length - s.data_offset ≤ widths.sum →
      ∃ sfin, readSeq s widths = some (sfin, s.buf.drop s.data_offset) ∧
        sfin.data_offset = s.buf.length ∧ sfin.buf = s.buf ∧
        sfin.buf_valid = true ∧ sfin.selector = s.selector := by
  induction widths with
  | nil =>
    intro s hv hoff hrem
    refine ⟨s, ?_, by simp at hrem; omega, rfl, hv, rfl⟩
    unfold readSeq
    rw [List.drop_eq_nil_of_le (by simp at hrem; omega)]
  | cons w ws ih =>
    intro s hv hoff hrem
    have hstep := read_data_valid s w hv
    obtain ⟨sfin, hseq, hoff2, hbuf, hv2, hsel⟩ :=
      ih { s with data_offset :=
            s.data_offset + min (s.buf.length - s.data_offset) w }
        hv (by simp; omega) (by simp [List.sum_cons] at hrem ⊢; omega)
    refine ⟨sfin, ?_, by simpa using hoff2, by simpa using hbuf, hv2,
      by simpa using hsel⟩
    simp only [readSeq, hstep, hseq]
    rw [← List.drop_drop, List.take_append_drop]

/-- read_data with an invalid cached buffer and a file-range selector
holding a Vec file behaves exactly as on the state whose buffer is that
file's content marked valid. -/
theorem read_data_file_vec (s : FwCfg) (w i : Nat) (name content : List Nat)
    (hv : s.buf_valid = false)
    (hsel : s.selector = ⟨Selector.BASE_FILE.val + i⟩)
    (hi : Selector.BASE_FILE.val + i < Selector.BASE_ARCH_LOCAL.val)
    (hfile : s.files[i]? = some (name, .vec content)) :
    read_data s w = read_data { s with buf := content, buf_valid := true } w := by
  have hval : Selector.BASE_FILE.val = 0x20 := rfl
  have harch : Selector.BASE_ARCH_LOCAL.val = 0x8000 := rfl
  rw [hval] at hsel hi
  rw [harch] at hi
  have hmat : materialize s.files s.selector = .ok content := by
    unfold materialize
    rw [hsel]
    rw [if_neg (by simp [Selector.SIGNATURE, Selector.mk.injEq])]
    rw [if_neg (by simp only [Selector.ID, Selector.mk.injEq]; omega)]
    rw [if_neg (by simp only [Selector.FILE_DIR, Selector.mk.injEq]; omega)]
    rw [if_neg (by simp only [hval, harch, not_not]; omega)]
    have hidx : (⟨0x20 + i⟩ : Selector).val - Selector.BASE_FILE.val = i := by
      show 0x20 + i - Selector.BASE_FILE.val = i
      rw [hval]
      omega
    rw [hidx, hfile]
  unfold read_data
  rw [if_neg (by simp [hv]), if_pos rfl, hmat]

/-- A read sequence is determined by its head read outcome. -/
theorem readSeq_congr_head (s t : FwCfg) (w : Nat) (ws : List Nat)
    (h : read_data s w = read_data t w) :
    readSeq s (w :: ws) = readSeq t (w :: ws) := by
  unfold readSeq
  rw [h]

end FwCfg

namespace FwCfg

/-- Claim C6 (counterexample): the read sequence need not reproduce the
selected file's content.  With files 0 = [1,2,3] and 1 = [9]: select
file 1, read a byte, then write selector 0x20 (file 0) twice; the
second identical write revalidates the stale cached buffer, so reading
until exhaustion yields [9], not file 0's content [1,2,3]. -/
theorem reread_same_selector_stale_counterexample :
    exTwoFiles.files[0]? = some ([], .vec [1, 2, 3]) ∧
    exStaleRun = some [9] ∧
    ¬ (exStaleRun = some [1, 2, 3]) := by
  exact ⟨rfl, rfl, by decide⟩

/-- Claim C6 (amended): for every registered Vec file and every
sequence of data-register read widths whose total covers the file,
performed after a selector write that changes the current selector to
the file's selector (with no intervening selector write), each read
copies min(width, remaining) bytes at the cursor and advances the
cursor by the bytes copied, so the concatenation of all bytes read
equals exactly the registered content, independent of the chunk widths,
and the final cursor sits at the content length. -/
theorem read_full_item_chunks (s : FwCfg) (i : Nat) (name content : List Nat)
    (widths : List Nat)
    (hfile : s.files[i]? = some (name, FwCfgFile.vec content))
    (hi : Selector.BASE_FILE.val + i < Selector.BASE_ARCH_LOCAL.val)
    (hchanged : s.selector ≠ ⟨Selector.BASE_FILE.val + i⟩)
    (hw : content.length ≤ widths.sum) :
    ∃ sfin,
      readSeq (write_selector s (Selector.BASE_FILE.val + i)).2 widths
        = some (sfin, content) ∧
      sfin.data_offset = content.length := by
  have hv1 : (write_selector s (Selector.BASE_FILE.val + i)).2.buf_valid = false := by
    simp only [write_selector, decide_eq_false_iff_not]
    exact fun hc => hchanged hc.symm
  cases widths with
  | nil =>
    have hnil : content = [] := by simpa using hw
    exact ⟨(write_selector s (Selector.BASE_FILE.val + i)).2, by
      unfold readSeq; rw [hnil], by rw [hnil]; rfl⟩
  | cons w ws =>
    have hcong :
        readSeq (write_selector s (Selector.BASE_FILE.val + i)).2 (w :: ws)
          = readSeq { (write_selector s (Selector.BASE_FILE.val + i)).2 with
              buf := content, buf_valid := true } (w :: ws) :=
      readSeq_congr_head _ _ _ _
        (read_data_file_vec _ w i name content hv1 rfl hi hfile)
    obtain ⟨sfin, hseq, hoff, _, _, _⟩ :=
      readSeq_drains (w :: ws)
        { (write_selector s (Selector.BASE_FILE.val + i)).2 with
          buf := content, buf_valid := true }
        rfl (by show (0 : Nat) ≤ content.length; omega)
        (by show content.length - 0 ≤ (w :: ws).sum; omega)
    refine ⟨sfin, ?_, by simpa using hoff⟩
    rw [hcong, hseq]
    simp [write_selector]

/-- Witness for read_full_item_chunks: file 0 of the two-file device,
read in chunks of widths 2 and 2. -/
theorem read_full_item_chunks_witness :
    exTwoFiles.files[0]? = some ([], FwCfgFile.vec [1, 2, 3]) ∧
    ([1, 2, 3] : List Nat).length ≤ ([2, 2] : List Nat).sum ∧
    (∃ sfin,
      readSeq (write_selector exTwoFiles (Selector.BASE_FILE.val + 0)).2 [2, 2]
        = some (sfin, [1, 2, 3]) ∧
      sfin.data_offset = ([1, 2, 3] : List Nat).length) :=
  ⟨rfl, by decide,
    read_full_item_chunks exTwoFiles 0 [] [1, 2, 3] [2, 2] rfl (by decide)
      (by decide) (by decide)⟩

end FwCfg

namespace FwCfg

/-- Claim C9 (counterexample): after selecting file 0 and reading a
byte, writing the legacy deprecated selector 0x02 twice and reading
copies the stale file byte [7], not zero bytes: the second identical
selector write revalidates the cached buffer. -/
theorem unknown_selector_stale_read_counterexample :
    exLegacyRun = some [7] ∧ ¬ (exLegacyRun = some []) := by
  exact ⟨rfl, by decide⟩

/-- Claim C9 (amended): writing any 16-bit selector that is not
SIGNATURE, ID, FILE_DIR or a valid registered-file selector — the
legacy deprecated selectors included — and then reading the data
register returns Ok with zero bytes copied, never an InvalidRegister
or other fault, provided the written selector differs from the
device's current selector (writing the already-current value instead
revalidates the cached buffer and the read returns its bytes). -/
theorem unknown_selector_reads_empty (s : FwCfg) (u w : Nat)
    (_hu : u < 2 ^ 16)
    (hks : u ≠ Selector.SIGNATURE.val)
    (hki : u ≠ Selector.ID.val)
    (hkd : u ≠ Selector.FILE_DIR.val)
    (hnofile : u < Selector.BASE_FILE.val ∨ Selector.BASE_ARCH_LOCAL.val ≤ u ∨
      s.files[u - Selector.BASE_FILE.val]? = none)
    (hchanged : s.selector ≠ ⟨u⟩) :
    (read_data (write_selector s u).2 w).map (fun r => (r.1, r.2.2))
      = some (.Ok, []) := by
  have hks0 : u ≠ 0 := by simpa [Selector.SIGNATURE] using hks
  have hki1 : u ≠ 1 := by simpa [Selector.ID] using hki
  have hkd25 : u ≠ 0x19 := by simpa [Selector.FILE_DIR] using hkd
  have hv1 : (write_selector s u).2.buf_valid = false := by
    simp only [write_selector, decide_eq_false_iff_not]
    exact fun hc => hchanged hc.symm
  unfold read_data
  rw [if_neg (by simp [hv1])]
  have hsel1 : (write_selector s u).2.selector = ⟨u⟩ := rfl
  have hfiles1 : (write_selector s u).2.files = s.files := rfl
  rw [hsel1, hfiles1]
  unfold materialize
  rw [if_neg (by simp [Selector.SIGNATURE, Selector.mk.injEq]; omega)]
  rw [if_neg (by simp only [Selector.ID, Selector.mk.injEq]; omega)]
  rw [if_neg (by simp only [Selector.FILE_DIR, Selector.mk.injEq]; omega)]
  by_cases hrange : Selector.BASE_FILE.val ≤ (⟨u⟩ : Selector).val ∧
      (⟨u⟩ : Selector).val < Selector.BASE_ARCH_LOCAL.val
  · rw [if_neg (by simpa using hrange)]
    have hnone : s.files[(⟨u⟩ : Selector).val - Selector.BASE_FILE.val]? = none := by
      rcases hnofile with h | h | h
      · exact absurd hrange.1 (by show ¬ _ ≤ u; omega)
      · exact absurd hrange.2 (by show ¬ (u < _); omega)
      · exact h
    rw [hnone]
    rfl
  · rw [if_pos (by simpa using hrange)]
    simp [copy_step]

/-- Witness for unknown_selector_reads_empty: the legacy deprecated
selector 0x02 on the one-file device. -/
theorem unknown_selector_reads_empty_witness :
    (0x02 : Nat) < 2 ^ 16 ∧
    exOneFile.selector ≠ ⟨0x02⟩ ∧
    (read_data (write_selector exOneFile 0x02).2 4).map (fun r => (r.1, r.2.2))
      = some (.Ok, []) :=
  ⟨by decide, by decide,
    unknown_selector_reads_empty exOneFile 0x02 4 (by decide) (by decide)
      (by decide) (by decide) (Or.inl (by decide)) (by decide)⟩

end FwCfg

namespace FwCfg

/-- A record emitted on the success path has exactly 64 bytes. -/
theorem fileRecord_length (idx : Nat) (name : List Nat) (size : Nat)
    (h : name.length ≤ 55) : (fileRecord idx name size).length = 64 := by
  simp [fileRecord, be32, be16]
  omega

/-- Success-path shape of the per-file directory loop: the byte count,
and for every file index the 64-byte slice holding its record. -/
theorem gen_file_dir_records_spec (files : List (List Nat × FwCfgFile)) :
    ∀ idx recs, gen_file_dir_records files idx = (recs, none) →
      recs.length = 64 * files.length ∧
      ∀ i name content, files[i]? = some (name, content) →
        ∃ size, fileSize content = some size ∧ size ≤ 0xFFFFFFFF ∧
          name.length ≤ 55 ∧
          (recs.drop (64 * i)).take 64 = fileRecord (idx + i) name size := by
  induction files with
  | nil =>
    intro idx recs h
    rw [gen_file_dir_records] at h
    cases h
    exact ⟨rfl, fun i name content hc => by simp at hc⟩
  | cons hd tl ih =>
    intro idx recs h
    obtain ⟨name0, content0⟩ := hd
    rw [gen_file_dir_records] at h
    split at h
    · simp at h
    · split at h
      · simp at h
      · rename_i hascii hlong
        split at h
        · simp at h
        · rename_i size0 hsize0
          split at h
          · simp at h
          · rename_i hbig0
            have htl2 : (gen_file_dir_records tl (idx + 1)).2 = none := by
              have hsnd := congrArg Prod.snd h
              simpa using hsnd
            have hrecs : recs = fileRecord idx name0 size0 ++
                (gen_file_dir_records tl (idx + 1)).1 := by
              have hfst := congrArg Prod.fst h
              simpa using hfst.symm
            have htl : gen_file_dir_records tl (idx + 1)
                = ((gen_file_dir_records tl (idx + 1)).1, none) := by
              rw [← htl2]
            obtain ⟨hlen, hslices⟩ := ih (idx + 1) _ htl
            have h55 : name0.length ≤ 55 := by omega
            have hrl : (fileRecord idx name0 size0).length = 64 :=
              fileRecord_length idx name0 size0 h55
            constructor
            · rw [hrecs]
              simp only [List.length_append, List.length_cons, hrl, hlen]
              omega
            · intro i name content hc
              cases i with
              | zero =>
                simp only [List.getElem?_cons_zero, Option.some.injEq,
                  Prod.mk.injEq] at hc
                obtain ⟨hn, hco⟩ := hc
                subst hn
                subst hco
                refine ⟨size0, hsize0, by omega, h55, ?_⟩
                rw [hrecs, Nat.mul_zero, List.drop_zero,
                  List.take_left' hrl, Nat.add_zero]
              | succ i =>
                simp only [List.getElem?_cons_succ] at hc
                obtain ⟨size, hsz, hb, h55i, hslice⟩ := hslices i name content hc
                refine ⟨size, hsz, hb, h55i, ?_⟩
                have hsplit : 64 * (i + 1) = (fileRecord idx name0 size0).length + 64 * i := by
                  rw [hrl]
                  ring
                have hidx : idx + 1 + i = idx + (i + 1) := by omega
                rw [hrecs, hsplit, List.drop_append, hslice, hidx]

end FwCfg

namespace FwCfg

/-- Claim C7: a successfully synthesized file directory begins with a
4-byte big-endian count equal to the number of registered files,
followed by one 64-byte record per file in registration order, where
record i carries the sequential selector BASE_FILE + i, the file's
size in 32-bit big-endian, and its NUL-padded 56-byte name. -/
theorem gen_file_dir_format (files : List (List Nat × FwCfgFile)) (bytes : List Nat)
    (h : gen_file_dir files = (bytes, none)) (hn : files.length ≤ 0xFFDF) :
    bytes.length = 4 + 64 * files.length ∧
    bytes.take 4 = be32 files.length ∧
    ∀ i name content, files[i]? = some (name, content) →
      ∃ size, fileSize content = some size ∧
        (bytes.drop (4 + 64 * i)).take 64 =
          be32 size ++ be16 (Selector.BASE_FILE.val + i) ++ [0, 0] ++
            (name ++ List.replicate (56 - name.length) 0) := by
  unfold gen_file_dir at h
  have h2 : (gen_file_dir_records files 0).2 = none := by
    have hsnd := congrArg Prod.snd h
    simpa using hsnd
  have h1 : bytes = be32 (files.length % 2 ^ 32) ++ (gen_file_dir_records files 0).1 := by
    have hfst := congrArg Prod.fst h
    simpa using hfst.symm
  have hrecsome : gen_file_dir_records files 0
      = ((gen_file_dir_records files 0).1, none) := by
    rw [← h2]
  obtain ⟨hlen, hslices⟩ := gen_file_dir_records_spec files 0 _ hrecsome
  have hmod : files.length % 2 ^ 32 = files.length := Nat.mod_eq_of_lt (by omega)
  have hb4 : (be32 (files.length % 2 ^ 32)).length = 4 := by simp [be32]
  refine ⟨?_, ?_, ?_⟩
  · rw [h1]
    simp only [List.length_append, hb4, hlen]
  · rw [h1, hmod]
    exact List.take_left' (by simp [be32])
  · intro i name content hc
    have hilt : i < files.length := by
      by_contra hge
      rw [List.getElem?_eq_none (by omega)] at hc
      exact Option.noConfusion hc
    obtain ⟨size, hsz, _, h55i, hslice⟩ := hslices i name content hc
    refine ⟨size, hsz, ?_⟩
    have hsplit : 4 + 64 * i = (be32 (files.length % 2 ^ 32)).length + 64 * i := by
      rw [hb4]
    rw [h1, hsplit, List.drop_append, hslice]
    unfold fileRecord
    have hmod16 : (Selector.BASE_FILE.val + (0 + i)) % 2 ^ 16
        = Selector.BASE_FILE.val + i := by
      have hbf : Selector.BASE_FILE.val = 0x20 := rfl
      rw [hbf]
      omega
    rw [hmod16]
    have hbe0 : be16 0 = [0, 0] := rfl
    rw [hbe0]

/-- Witness for gen_file_dir_format on the two-entry file table: the
synthesized directory has the claimed length and count prefix. -/
theorem gen_file_dir_format_witness :
    gen_file_dir exFileTable = ((gen_file_dir exFileTable).1, none) ∧
    exFileTable.length ≤ 0xFFDF ∧
    (gen_file_dir exFileTable).1.length = 4 + 64 * exFileTable.length ∧
    (gen_file_dir exFileTable).1.take 4 = be32 exFileTable.length :=
  ⟨rfl, by decide,
    (gen_file_dir_format exFileTable (gen_file_dir exFileTable).1 rfl (by decide)).1,
    (gen_file_dir_format exFileTable (gen_file_dir exFileTable).1 rfl (by decide)).2.1⟩

end FwCfg
